import Mathlib

/-!
Verification of the geotable library: a shallow embedding of the geometry-column
resolution, CRS normalization and transform construction, CSV load/save CRS
handling, vector-dataset layer writing, duplicate-geometry dropping and
folder loading, with theorems checking the stated behavior of each piece.

Python sequences become Lean lists, fallible code returns `Except`/`Option`,
and calls into the external geospatial library (GDAL/OGR/shapely/pandas) are
modelled by explicit parameters or by small definitions noted as modelled
from the documented behavior of those collaborators.
-/

/- ------------------------------------------------------------------
Geometry column resolution (`geotable.macros._get_geometry_columns`,
`_get_paired_columns`, `_normalize_column_name`).
------------------------------------------------------------------ -/

/-- Models `macros._normalize_column_name`: `str(x).lower().replace('_', '')`,
i.e. lowercase the column name and remove every underscore. -/
def normalize_column_name (s : String) : String :=
  ⟨(s.data.map Char.toLower).filter (fun c => c != '_')⟩

/-- Models Python `str.endswith`: the characters of `suffixText` are a suffix
of the characters of `s`. -/
def endsWithText (s suffixText : String) : Bool :=
  s.data.drop (s.data.length - suffixText.data.length) == suffixText.data

/-- The three single-column names recognized by the first loop of
`_get_geometry_columns` (after normalization). -/
def is_wkt_column_name (s : String) : Bool :=
  s == "wkt" || s == "longitudelatitudewkt" || s == "latitudelongitudewkt"

/-- The first loop of `_get_geometry_columns`: return the first column whose
normalized name is one of the three recognized wkt names. -/
def find_wkt_column : List String → Option String
  | [] => none
  | c :: cs =>
    if is_wkt_column_name (normalize_column_name c) then some c
    else find_wkt_column cs

/-- The loop of `macros._get_paired_columns`: scan the columns, remembering the
last column matching `isX` as the x column and the last column matching `isY`
(and not `isX`, because of the `elif`) as the y column. -/
def pair_step (isX isY : String → Bool) :
    List String → Option String → Option String → Option String × Option String
  | [], xCol, yCol => (xCol, yCol)
  | c :: cs, xCol, yCol =>
    if isX (normalize_column_name c) then pair_step isX isY cs (some c) yCol
    else if isY (normalize_column_name c) then pair_step isX isY cs xCol (some c)
    else pair_step isX isY cs xCol yCol

/-- Models `macros._get_paired_columns`: `[x_column, y_column]` when both were
found, otherwise Python's implicit `None`. -/
def get_paired_columns (column_names : List String) (isX isY : String → Bool) :
    Option (List String) :=
  match pair_step isX isY column_names none none with
  | (some xCol, some yCol) => some [xCol, yCol]
  | _ => none

/-- Models `macros._get_geometry_columns`: try the wkt single-column patterns,
then the four coordinate-pair patterns in order, else raise
`GeoTableError('geometry columns expected')`. -/
def get_geometry_columns (column_names : List String) : Except String (List String) :=
  match find_wkt_column column_names with
  | some c => Except.ok [c]
  | none =>
    match get_paired_columns column_names
        (fun n => n == "longitude") (fun n => n == "latitude") with
    | some p => Except.ok p
    | none =>
      match get_paired_columns column_names
          (fun n => endsWithText n "longitude") (fun n => endsWithText n "latitude") with
      | some p => Except.ok p
      | none =>
        match get_paired_columns column_names
            (fun n => n == "lon") (fun n => n == "lat") with
        | some p => Except.ok p
        | none =>
          match get_paired_columns column_names
              (fun n => n == "x") (fun n => n == "y") with
          | some p => Except.ok p
          | none => Except.error "geometry columns expected"

/-- Spec-side predicate: some column normalizes to a recognized wkt name. -/
def has_wkt_column (names : List String) : Bool :=
  names.any (fun c => is_wkt_column_name (normalize_column_name c))

/-- Spec-side predicate: the column list contains a column matching `isX` and a
column matching `isY` (after normalization). -/
def has_column_pair (names : List String) (isX isY : String → Bool) : Bool :=
  (names.any fun c => isX (normalize_column_name c)) &&
  (names.any fun c => isY (normalize_column_name c))

/-- Spec-side predicate: the normalized column name matches none of the
recognized geometry-column patterns. -/
def matches_no_geometry_pattern (c : String) : Bool :=
  let n := normalize_column_name c
  !(is_wkt_column_name n) && !(endsWithText n "longitude") && !(endsWithText n "latitude")
    && !(n == "lon") && !(n == "lat") && !(n == "x") && !(n == "y")

example : get_geometry_columns ["WKT"] = Except.ok ["WKT"] := rfl
example : get_geometry_columns ["LATITUDE_LONGITUDE_WKT"] =
    Except.ok ["LATITUDE_LONGITUDE_WKT"] := rfl
example : get_geometry_columns ["name", "Latitude", "Longitude"] =
    Except.ok ["Longitude", "Latitude"] := rfl
example : get_geometry_columns ["IncredibleLatitude", "IncredibleLongitude"] =
    Except.ok ["IncredibleLongitude", "IncredibleLatitude"] := rfl
example : get_geometry_columns ["LON", "LAT"] = Except.ok ["LON", "LAT"] := rfl
example : get_geometry_columns ["y", "x"] = Except.ok ["x", "y"] := rfl
example : get_geometry_columns ["a", "b"] = Except.error "geometry columns expected" := rfl

lemma endsWithText_refl (s : String) : endsWithText s s = true := by
  simp [endsWithText]

lemma endsWithText_of_eq {n t : String} (h : n = t) : endsWithText n t = true := by
  subst h; exact endsWithText_refl n

/-- A normalized name cannot end with both `longitude` and `latitude`. -/
lemma ends_longitude_not_latitude (s : String)
    (h : endsWithText s "longitude" = true) : endsWithText s "latitude" = false := by
  rw [endsWithText, beq_iff_eq] at h
  rw [endsWithText, beq_eq_false_iff_ne]
  intro hcon
  have hlen := congrArg List.length h
  rw [List.length_drop] at hlen
  have h9 : 9 ≤ s.data.length := by
    simp only [show ("longitude".data : List Char).length = 9 from rfl] at hlen
    omega
  have hstep : s.data.length - "latitude".data.length
      = (s.data.length - "longitude".data.length)
        + ("longitude".data.length - "latitude".data.length) := by
    simp only [show ("longitude".data : List Char).length = 9 from rfl,
      show ("latitude".data : List Char).length = 8 from rfl]
    omega
  rw [hstep, ← List.drop_drop, h] at hcon
  exact absurd hcon (by decide)

lemma find_wkt_column_eq_none {names : List String}
    (h : has_wkt_column names = false) : find_wkt_column names = none := by
  induction names with
  | nil => rfl
  | cons c cs ih =>
    simp only [has_wkt_column, List.any_cons, Bool.or_eq_false_iff] at h
    simpa [find_wkt_column, h.1] using ih h.2

lemma find_wkt_column_eq_some {names : List String}
    (h : has_wkt_column names = true) :
    ∃ c, c ∈ names ∧ is_wkt_column_name (normalize_column_name c) = true ∧
      find_wkt_column names = some c := by
  induction names with
  | nil => simp [has_wkt_column] at h
  | cons c cs ih =>
    by_cases hc : is_wkt_column_name (normalize_column_name c) = true
    · exact ⟨c, List.mem_cons_self c cs, hc, by simp [find_wkt_column, hc]⟩
    · simp only [has_wkt_column, List.any_cons, Bool.or_eq_true] at h
      rcases h with h | h
      · exact absurd h hc
      · obtain ⟨d, hd, hwkt, hfind⟩ := ih h
        refine ⟨d, List.mem_cons_of_mem c hd, hwkt, ?_⟩
        simpa [find_wkt_column, hc] using hfind

lemma pair_step_fst_of_none {isX isY : String → Bool} {names : List String}
    (xCol yCol : Option String)
    (h : ∀ c ∈ names, isX (normalize_column_name c) = false) :
    (pair_step isX isY names xCol yCol).1 = xCol := by
  induction names generalizing xCol yCol with
  | nil => rfl
  | cons c cs ih =>
    have hc := h c (List.mem_cons_self c cs)
    have hrest : ∀ d ∈ cs, isX (normalize_column_name d) = false :=
      fun d hd => h d (List.mem_cons_of_mem c hd)
    by_cases hy : isY (normalize_column_name c) = true
    · simpa [pair_step, hc, hy] using ih xCol (some c) hrest
    · simp only [Bool.not_eq_true] at hy
      simpa [pair_step, hc, hy] using ih xCol yCol hrest

lemma pair_step_fst_of_some {isX isY : String → Bool} {names : List String}
    (xCol yCol : Option String)
    (h : ∃ c ∈ names, isX (normalize_column_name c) = true) :
    ∃ x, x ∈ names ∧ isX (normalize_column_name x) = true ∧
      (pair_step isX isY names xCol yCol).1 = some x := by
  induction names generalizing xCol yCol with
  | nil => simp at h
  | cons c cs ih =>
    by_cases hc : isX (normalize_column_name c) = true
    · by_cases hcs : cs.any (fun d => isX (normalize_column_name d)) = true
      · simp only [List.any_eq_true] at hcs
        obtain ⟨x, hx, hxX, hfst⟩ := ih (some c) yCol ⟨hcs.choose, hcs.choose_spec⟩
        exact ⟨x, List.mem_cons_of_mem c hx, hxX, by simpa [pair_step, hc] using hfst⟩
      · simp only [List.any_eq_true, not_exists, not_and, ← Bool.not_eq_true] at hcs
        refine ⟨c, List.mem_cons_self c cs, hc, ?_⟩
        have := @pair_step_fst_of_none isX isY cs
          (some c) yCol (by intro d hd; simpa using hcs d hd)
        simpa [pair_step, hc] using this
    · obtain ⟨d, hd, hdX⟩ := h
      rcases List.mem_cons.mp hd with rfl | hd
      · exact absurd hdX hc
      · simp only [Bool.not_eq_true] at hc
        by_cases hy : isY (normalize_column_name c) = true
        · obtain ⟨x, hx, hxX, hfst⟩ := ih xCol (some c) ⟨d, hd, hdX⟩
          exact ⟨x, List.mem_cons_of_mem c hx, hxX, by simpa [pair_step, hc, hy] using hfst⟩
        · simp only [Bool.not_eq_true] at hy
          obtain ⟨x, hx, hxX, hfst⟩ := ih xCol yCol ⟨d, hd, hdX⟩
          exact ⟨x, List.mem_cons_of_mem c hx, hxX, by simpa [pair_step, hc, hy] using hfst⟩

lemma pair_step_snd_of_none {isX isY : String → Bool} {names : List String}
    (xCol yCol : Option String)
    (h : ∀ c ∈ names, isX (normalize_column_name c) = false →
      isY (normalize_column_name c) = false) :
    (pair_step isX isY names xCol yCol).2 = yCol := by
  induction names generalizing xCol yCol with
  | nil => rfl
  | cons c cs ih =>
    have hrest : ∀ d ∈ cs, isX (normalize_column_name d) = false →
        isY (normalize_column_name d) = false :=
      fun d hd => h d (List.mem_cons_of_mem c hd)
    by_cases hc : isX (normalize_column_name c) = true
    · simpa [pair_step, hc] using ih (some c) yCol hrest
    · simp only [Bool.not_eq_true] at hc
      have hy := h c (List.mem_cons_self c cs) hc
      simpa [pair_step, hc, hy] using ih xCol yCol hrest

lemma pair_step_snd_of_some {isX isY : String → Bool} {names : List String}
    (xCol yCol : Option String)
    (h : ∃ c ∈ names, isX (normalize_column_name c) = false ∧
      isY (normalize_column_name c) = true) :
    ∃ y, y ∈ names ∧ isY (normalize_column_name y) = true ∧
      (pair_step isX isY names xCol yCol).2 = some y := by
  induction names generalizing xCol yCol with
  | nil => simp at h
  | cons c cs ih =>
    by_cases hc : isX (normalize_column_name c) = false ∧
        isY (normalize_column_name c) = true
    · by_cases hcs : cs.any
          (fun d => !isX (normalize_column_name d) && isY (normalize_column_name d)) = true
      · simp only [List.any_eq_true, Bool.and_eq_true, Bool.not_eq_true'] at hcs
        obtain ⟨y, hy, hyY, hsnd⟩ := ih xCol (some c) hcs
        exact ⟨y, List.mem_cons_of_mem c hy, hyY,
          by simpa [pair_step, hc.1, hc.2] using hsnd⟩
      · simp only [List.any_eq_true, not_exists, not_and, Bool.and_eq_true,
          Bool.not_eq_true', ← Bool.not_eq_true] at hcs
        refine ⟨c, List.mem_cons_self c cs, hc.2, ?_⟩
        have := @pair_step_snd_of_none isX isY cs
          xCol (some c) (by
            intro d hd hdX
            have := hcs d hd
            simp only [hdX, not_true_eq_false, false_implies, Bool.not_eq_true] at this
            exact of_not_not (by simpa using this))
        simpa [pair_step, hc.1, hc.2] using this
    · obtain ⟨d, hd, hdQ⟩ := h
      rcases List.mem_cons.mp hd with rfl | hd
      · exact absurd hdQ hc
      · by_cases hx : isX (normalize_column_name c) = true
        · obtain ⟨y, hy, hyY, hsnd⟩ := ih (some c) yCol ⟨d, hd, hdQ⟩
          exact ⟨y, List.mem_cons_of_mem c hy, hyY, by simpa [pair_step, hx] using hsnd⟩
        · simp only [Bool.not_eq_true] at hx
          have hy : isY (normalize_column_name c) = false := by
            by_contra hcon
            exact hc ⟨hx, by simpa using hcon⟩
          obtain ⟨y, hy', hyY, hsnd⟩ := ih xCol yCol ⟨d, hd, hdQ⟩
          exact ⟨y, List.mem_cons_of_mem c hy', hyY,
            by simpa [pair_step, hx, hy] using hsnd⟩

lemma get_paired_columns_eq_none_left {isX isY : String → Bool} {names : List String}
    (h : ∀ c ∈ names, isX (normalize_column_name c) = false) :
    get_paired_columns names isX isY = none := by
  have hfst := @pair_step_fst_of_none isX isY names
    none none h
  rw [get_paired_columns]
  rcases hp : pair_step isX isY names none none with ⟨x?, y?⟩
  rw [hp] at hfst
  simp only at hfst
  subst hfst
  rfl

lemma get_paired_columns_eq_none_right {isX isY : String → Bool} {names : List String}
    (h : ∀ c ∈ names, isY (normalize_column_name c) = false) :
    get_paired_columns names isX isY = none := by
  have hsnd := @pair_step_snd_of_none isX isY names
    none none (fun c hc _ => h c hc)
  rw [get_paired_columns]
  rcases hp : pair_step isX isY names none none with ⟨x?, y?⟩
  rw [hp] at hsnd
  simp only at hsnd
  subst hsnd
  rcases x? with _ | x <;> rfl

lemma get_paired_columns_eq_some {isX isY : String → Bool} {names : List String}
    (hdisj : ∀ s, isX s = true → isY s = false)
    (hx : ∃ c ∈ names, isX (normalize_column_name c) = true)
    (hy : ∃ c ∈ names, isY (normalize_column_name c) = true) :
    ∃ x y, x ∈ names ∧ isX (normalize_column_name x) = true ∧
      y ∈ names ∧ isY (normalize_column_name y) = true ∧
      get_paired_columns names isX isY = some [x, y] := by
  obtain ⟨x, hxm, hxX, hfst⟩ :=
    @pair_step_fst_of_some isX isY names none none hx
  obtain ⟨c, hcm, hcY⟩ := hy
  have hcX : isX (normalize_column_name c) = false := by
    by_contra hcon
    rw [Bool.not_eq_false] at hcon
    rw [hdisj _ hcon] at hcY
    exact Bool.false_ne_true hcY
  obtain ⟨y, hym, hyY, hsnd⟩ :=
    @pair_step_snd_of_some isX isY names none none
      ⟨c, hcm, hcX, hcY⟩
  refine ⟨x, y, hxm, hxX, hym, hyY, ?_⟩
  rw [get_paired_columns]
  rcases hp : pair_step isX isY names none none with ⟨x?, y?⟩
  rw [hp] at hfst hsnd
  simp only at hfst hsnd
  subst hfst
  subst hsnd
  rfl

lemma find_wkt_column_insert (l₁ l₂ : List String) (c : String)
    (hc : is_wkt_column_name (normalize_column_name c) = false) :
    find_wkt_column (l₁ ++ c :: l₂) = find_wkt_column (l₁ ++ l₂) := by
  induction l₁ with
  | nil => simp [find_wkt_column, hc]
  | cons a l ih =>
    by_cases ha : is_wkt_column_name (normalize_column_name a) = true
    · simp [find_wkt_column, ha]
    · simp only [Bool.not_eq_true] at ha
      simp [find_wkt_column, ha, ih]

lemma pair_step_insert (isX isY : String → Bool) (l₁ l₂ : List String) (c : String)
    (xCol yCol : Option String)
    (hx : isX (normalize_column_name c) = false)
    (hy : isY (normalize_column_name c) = false) :
    pair_step isX isY (l₁ ++ c :: l₂) xCol yCol
      = pair_step isX isY (l₁ ++ l₂) xCol yCol := by
  induction l₁ generalizing xCol yCol with
  | nil => simp [pair_step, hx, hy]
  | cons a l ih =>
    by_cases hax : isX (normalize_column_name a) = true
    · simp [pair_step, hax, ih]
    · simp only [Bool.not_eq_true] at hax
      by_cases hay : isY (normalize_column_name a) = true
      · simp [pair_step, hax, hay, ih]
      · simp only [Bool.not_eq_true] at hay
        simp [pair_step, hax, hay, ih]

lemma get_paired_columns_insert (isX isY : String → Bool) (l₁ l₂ : List String)
    (c : String)
    (hx : isX (normalize_column_name c) = false)
    (hy : isY (normalize_column_name c) = false) :
    get_paired_columns (l₁ ++ c :: l₂) isX isY = get_paired_columns (l₁ ++ l₂) isX isY := by
  unfold get_paired_columns
  rw [pair_step_insert isX isY l₁ l₂ c none none hx hy]

lemma get_geometry_columns_insert (l₁ l₂ : List String) (c : String)
    (hc : matches_no_geometry_pattern c = true) :
    get_geometry_columns (l₁ ++ c :: l₂) = get_geometry_columns (l₁ ++ l₂) := by
  simp only [matches_no_geometry_pattern, Bool.and_eq_true, Bool.not_eq_true'] at hc
  obtain ⟨⟨⟨⟨⟨⟨hwkt, hlon⟩, hlat⟩, hlon2⟩, hlat2⟩, hx⟩, hy⟩ := hc
  have hlon1 : (normalize_column_name c == "longitude") = false := by
    rw [beq_eq_false_iff_ne]
    intro heq
    rw [endsWithText_of_eq heq] at hlon
    simp at hlon
  have hlat1 : (normalize_column_name c == "latitude") = false := by
    rw [beq_eq_false_iff_ne]
    intro heq
    rw [endsWithText_of_eq heq] at hlat
    simp at hlat
  have e0 := find_wkt_column_insert l₁ l₂ c hwkt
  have e1 := get_paired_columns_insert (fun n => n == "longitude")
    (fun n => n == "latitude") l₁ l₂ c hlon1 hlat1
  have e2 := get_paired_columns_insert (fun n => endsWithText n "longitude")
    (fun n => endsWithText n "latitude") l₁ l₂ c hlon hlat
  have e3 := get_paired_columns_insert (fun n => n == "lon")
    (fun n => n == "lat") l₁ l₂ c hlon2 hlat2
  have e4 := get_paired_columns_insert (fun n => n == "x")
    (fun n => n == "y") l₁ l₂ c hx hy
  rw [get_geometry_columns, get_geometry_columns, e0, e1, e2, e3, e4]

lemma has_column_pair_false_none {isX isY : String → Bool} {names : List String}
    (h : has_column_pair names isX isY = false) :
    get_paired_columns names isX isY = none := by
  rw [has_column_pair, Bool.and_eq_false_iff] at h
  rcases h with h | h
  · exact get_paired_columns_eq_none_left (by
      intro c hc
      exact Bool.not_eq_true _ ▸ (List.any_eq_false.mp h) c hc)
  · exact get_paired_columns_eq_none_right (by
      intro c hc
      exact Bool.not_eq_true _ ▸ (List.any_eq_false.mp h) c hc)

lemma beq_pair_disjoint {a b : String} (hab : a ≠ b) :
    ∀ s : String, (s == a) = true → (s == b) = false := by
  intro s hs
  rw [beq_iff_eq] at hs
  subst hs
  rw [beq_eq_false_iff_ne]
  exact hab

lemma has_column_pair_exists {isX isY : String → Bool} {names : List String}
    (h : has_column_pair names isX isY = true) :
    (∃ c ∈ names, isX (normalize_column_name c) = true) ∧
    (∃ c ∈ names, isY (normalize_column_name c) = true) := by
  rw [has_column_pair, Bool.and_eq_true, List.any_eq_true, List.any_eq_true] at h
  exact h

/-- C1: geometry-column resolution tries the patterns in a fixed order —
(1) a single column whose normalized name is `wkt`, `longitudelatitudewkt` or
`latitudelongitudewkt`; (2) a pair normalizing exactly to `longitude`/`latitude`;
(3) a pair whose normalized names end with `longitude`/`latitude`;
(4) a pair `lon`/`lat`; (5) a pair `x`/`y` — and returns the original column
name(s) of the first matching pattern (x/longitude column first for pairs),
independently of any other non-matching columns present; if no pattern matches
it raises `GeoTableError('geometry columns expected')`. -/
theorem claim_C1_geometry_column_resolution (names : List String) :
    (has_wkt_column names = true →
      ∃ c, c ∈ names ∧ is_wkt_column_name (normalize_column_name c) = true ∧
        get_geometry_columns names = Except.ok [c]) ∧
    (has_wkt_column names = false →
      has_column_pair names (fun n => n == "longitude") (fun n => n == "latitude") = true →
      ∃ x y, x ∈ names ∧ y ∈ names ∧
        normalize_column_name x = "longitude" ∧ normalize_column_name y = "latitude" ∧
        get_geometry_columns names = Except.ok [x, y]) ∧
    (has_wkt_column names = false →
      has_column_pair names (fun n => n == "longitude") (fun n => n == "latitude") = false →
      has_column_pair names (fun n => endsWithText n "longitude")
        (fun n => endsWithText n "latitude") = true →
      ∃ x y, x ∈ names ∧ y ∈ names ∧
        endsWithText (normalize_column_name x) "longitude" = true ∧
        endsWithText (normalize_column_name y) "latitude" = true ∧
        get_geometry_columns names = Except.ok [x, y]) ∧
    (has_wkt_column names = false →
      has_column_pair names (fun n => n == "longitude") (fun n => n == "latitude") = false →
      has_column_pair names (fun n => endsWithText n "longitude")
        (fun n => endsWithText n "latitude") = false →
      has_column_pair names (fun n => n == "lon") (fun n => n == "lat") = true →
      ∃ x y, x ∈ names ∧ y ∈ names ∧
        normalize_column_name x = "lon" ∧ normalize_column_name y = "lat" ∧
        get_geometry_columns names = Except.ok [x, y]) ∧
    (has_wkt_column names = false →
      has_column_pair names (fun n => n == "longitude") (fun n => n == "latitude") = false →
      has_column_pair names (fun n => endsWithText n "longitude")
        (fun n => endsWithText n "latitude") = false →
      has_column_pair names (fun n => n == "lon") (fun n => n == "lat") = false →
      has_column_pair names (fun n => n == "x") (fun n => n == "y") = true →
      ∃ x y, x ∈ names ∧ y ∈ names ∧
        normalize_column_name x = "x" ∧ normalize_column_name y = "y" ∧
        get_geometry_columns names = Except.ok [x, y]) ∧
    (has_wkt_column names = false →
      has_column_pair names (fun n => n == "longitude") (fun n => n == "latitude") = false →
      has_column_pair names (fun n => endsWithText n "longitude")
        (fun n => endsWithText n "latitude") = false →
      has_column_pair names (fun n => n == "lon") (fun n => n == "lat") = false →
      has_column_pair names (fun n => n == "x") (fun n => n == "y") = false →
      get_geometry_columns names = Except.error "geometry columns expected") ∧
    (∀ l₁ l₂ c, names = l₁ ++ c :: l₂ → matches_no_geometry_pattern c = true →
      get_geometry_columns names = get_geometry_columns (l₁ ++ l₂)) := by
  refine ⟨?_, ?_, ?_, ?_, ?_, ?_, ?_⟩
  · intro hwkt
    obtain ⟨c, hc, hwk, hfind⟩ := find_wkt_column_eq_some hwkt
    exact ⟨c, hc, hwk, by rw [get_geometry_columns, hfind]⟩
  · intro hwkt hpair
    obtain ⟨hx, hy⟩ := has_column_pair_exists hpair
    obtain ⟨x, y, hxm, hxX, hym, hyY, hpaired⟩ :=
      get_paired_columns_eq_some (beq_pair_disjoint (by decide)) hx hy
    refine ⟨x, y, hxm, hym, beq_iff_eq.mp hxX, beq_iff_eq.mp hyY, ?_⟩
    rw [get_geometry_columns, find_wkt_column_eq_none hwkt, hpaired]
  · intro hwkt hp1 hpair
    obtain ⟨hx, hy⟩ := has_column_pair_exists hpair
    obtain ⟨x, y, hxm, hxX, hym, hyY, hpaired⟩ :=
      get_paired_columns_eq_some (fun s => ends_longitude_not_latitude s) hx hy
    refine ⟨x, y, hxm, hym, hxX, hyY, ?_⟩
    rw [get_geometry_columns, find_wkt_column_eq_none hwkt,
      has_column_pair_false_none hp1, hpaired]
  · intro hwkt hp1 hp2 hpair
    obtain ⟨hx, hy⟩ := has_column_pair_exists hpair
    obtain ⟨x, y, hxm, hxX, hym, hyY, hpaired⟩ :=
      get_paired_columns_eq_some (beq_pair_disjoint (by decide)) hx hy
    refine ⟨x, y, hxm, hym, beq_iff_eq.mp hxX, beq_iff_eq.mp hyY, ?_⟩
    rw [get_geometry_columns, find_wkt_column_eq_none hwkt,
      has_column_pair_false_none hp1, has_column_pair_false_none hp2, hpaired]
  · intro hwkt hp1 hp2 hp3 hpair
    obtain ⟨hx, hy⟩ := has_column_pair_exists hpair
    obtain ⟨x, y, hxm, hxX, hym, hyY, hpaired⟩ :=
      get_paired_columns_eq_some (beq_pair_disjoint (by decide)) hx hy
    refine ⟨x, y, hxm, hym, beq_iff_eq.mp hxX, beq_iff_eq.mp hyY, ?_⟩
    rw [get_geometry_columns, find_wkt_column_eq_none hwkt,
      has_column_pair_false_none hp1, has_column_pair_false_none hp2,
      has_column_pair_false_none hp3, hpaired]
  · intro hwkt hp1 hp2 hp3 hp4
    rw [get_geometry_columns, find_wkt_column_eq_none hwkt,
      has_column_pair_false_none hp1, has_column_pair_false_none hp2,
      has_column_pair_false_none hp3, has_column_pair_false_none hp4]
  · intro l₁ l₂ c hnames hc
    subst hnames
    exact get_geometry_columns_insert l₁ l₂ c hc

/-- Witness for C1 at concrete inputs: a table with none of the recognized
patterns resolves to the `geometry columns expected` error. -/
theorem claim_C1_witness :
    get_geometry_columns ["id", "name"] = Except.error "geometry columns expected" :=
  (claim_C1_geometry_column_resolution ["id", "name"]).2.2.2.2.2.1
    (by rfl) (by rfl) (by rfl) (by rfl) (by rfl)

/- ------------------------------------------------------------------
CRS transforms (`geotable.projections._get_transform_gdal_geometry`,
`get_transform_shapely_geometry`) and the longitude-latitude constant.
------------------------------------------------------------------ -/

/-- The canonical longitude-latitude CRS string: in `projections.py` it is
`normalize_proj4('+proj=longlat +datum=WGS84 +no_defs')`, and that input is
already in the canonical form the external library prints back. -/
def LONGITUDE_LATITUDE_PROJ4 : String := "+proj=longlat +datum=WGS84 +no_defs"

/-- The transform built by `_get_transform_gdal_geometry`: either the literal
identity `lambda x: x`, or a real coordinate transformation constructed from
the two proj4 strings by the external library. -/
inductive GeometryTransform
  | identity
  | projected (source_proj4 target_proj4 : String)

/-- Models `projections._get_transform_gdal_geometry`: the identity shortcut is
taken when `target_proj4` is falsy (None or empty) or when the two proj4
strings are equal as given; otherwise a coordinate transformation is built. -/
def get_transform_gdal_geometry (source_proj4 : String) (target_proj4 : Option String) :
    GeometryTransform :=
  match target_proj4 with
  | none => GeometryTransform.identity
  | some t =>
    if t = "" then GeometryTransform.identity
    else if source_proj4 = t then GeometryTransform.identity
    else GeometryTransform.projected source_proj4 t

/-- Models `projections.get_transform_shapely_geometry`, which wraps the gdal
transform of the same two strings (the wrapper round-trips the geometry
through well-known-binary without changing coordinates). -/
def get_transform_shapely_geometry (source_proj4 : String) (target_proj4 : Option String) :
    GeometryTransform :=
  get_transform_gdal_geometry source_proj4 target_proj4

/-- Modelled from the spec: proj4 canonicalization is performed by the external
library (`normalize_proj4` calls `SpatialReference.ImportFromProj4` followed by
`ExportToProj4().strip()`), so two proj4 strings that differ only in trailing
whitespace have textually equal canonical forms. `trim_canonicalize` is one
such canonicalization: it strips trailing spaces. -/
def trim_canonicalize (s : String) : String :=
  ⟨(s.data.reverse.dropWhile (fun c => c == ' ')).reverse⟩

/-- C2 counterexample: two proj4 strings that are canonically equal (they
differ only by a trailing space, which canonicalization strips) but textually
different; the transform built from them is a real projection, not the
identity, refuting the claim that canonical equality suffices for identity. -/
theorem claim_C2_counterexample :
    trim_canonicalize "+proj=longlat +datum=WGS84 +no_defs"
      = trim_canonicalize "+proj=longlat +datum=WGS84 +no_defs " ∧
    get_transform_shapely_geometry "+proj=longlat +datum=WGS84 +no_defs"
        (some "+proj=longlat +datum=WGS84 +no_defs ")
      = GeometryTransform.projected "+proj=longlat +datum=WGS84 +no_defs"
          "+proj=longlat +datum=WGS84 +no_defs " ∧
    GeometryTransform.projected "+proj=longlat +datum=WGS84 +no_defs"
        "+proj=longlat +datum=WGS84 +no_defs " ≠ GeometryTransform.identity := by
  refine ⟨by decide, by rfl, ?_⟩
  intro h
  exact GeometryTransform.noConfusion h

/-- C2 (amended): the transform built from `(s, t)` is the identity function
exactly when `t` is empty/null or textually equal to `s` as given; a target
that is merely canonically equal to the source but differs textually yields a
real transformation object, not the identity shortcut. -/
theorem claim_C2_identity_transform (source_proj4 : String) (target_proj4 : Option String) :
    get_transform_shapely_geometry source_proj4 target_proj4 = GeometryTransform.identity
      ↔ (target_proj4 = none ∨ target_proj4 = some "" ∨ target_proj4 = some source_proj4) := by
  rcases target_proj4 with _ | t
  · simp [get_transform_shapely_geometry, get_transform_gdal_geometry]
  · by_cases h0 : t = ""
    · subst h0
      simp [get_transform_shapely_geometry, get_transform_gdal_geometry]
    · by_cases hs : source_proj4 = t
      · subst hs
        simp [get_transform_shapely_geometry, get_transform_gdal_geometry, h0]
      · simp only [get_transform_shapely_geometry, get_transform_gdal_geometry,
          if_neg h0, if_neg hs]
        constructor
        · intro h
          exact absurd h (fun hcon => GeometryTransform.noConfusion hcon)
        · intro h
          rcases h with h | h | h
          · exact Option.noConfusion h
          · exact absurd (Option.some.inj h) h0
          · exact absurd (Option.some.inj h).symm hs

/- ------------------------------------------------------------------
Single-CRS predicate (`geotable.macros._has_one_proj4`).
------------------------------------------------------------------ -/

/-- Models `macros._has_one_proj4`. The table is reduced to what the function
reads: its row count (`len(t)`) and its `geometry_proj4` column when present
(`none` models a table without that column; when present the list holds one
value per row). `len(t['geometry_proj4'].unique()) == 1` becomes a count of
distinct values. -/
def has_one_proj4 (row_count : Nat) (proj4_column : Option (List String)) : Bool :=
  if row_count < 1 then false
  else
    match proj4_column with
    | none => true
    | some vs => vs.dedup.length == 1

lemma dedup_eq_singleton_of_all_eq {α : Type} [DecidableEq α] {l : List α} {a : α}
    (hne : l ≠ []) (hall : ∀ x ∈ l, x = a) : l.dedup = [a] := by
  induction l with
  | nil => exact absurd rfl hne
  | cons b l ih =>
    have hb : b = a := hall b (List.mem_cons_self b l)
    subst hb
    rcases l with _ | ⟨c, l'⟩
    · rfl
    · have hc : c = b := hall c (by simp)
      have hmem : b ∈ c :: l' := by
        rw [hc]
        exact List.mem_cons_self b l'
      rw [List.dedup_cons_of_mem hmem]
      exact ih (by simp) (fun x hx => hall x (List.mem_cons_of_mem b hx))

/-- C3: the single-CRS predicate returns false for every empty table; for every
non-empty table it returns true if there is no per-row `geometry_proj4` column,
and otherwise returns true if and only if all rows share one value. -/
theorem claim_C3_has_one_proj4 (row_count : Nat) (proj4_column : Option (List String)) :
    (row_count = 0 → has_one_proj4 row_count proj4_column = false) ∧
    (0 < row_count → proj4_column = none → has_one_proj4 row_count proj4_column = true) ∧
    (∀ vs, 0 < row_count → proj4_column = some vs → vs.length = row_count →
      (has_one_proj4 row_count proj4_column = true ↔ ∃ p, ∀ v ∈ vs, v = p)) := by
  refine ⟨?_, ?_, ?_⟩
  · intro h
    subst h
    rfl
  · intro hpos hnone
    subst hnone
    simp [has_one_proj4, Nat.not_lt.mpr (Nat.one_le_iff_ne_zero.mpr (Nat.pos_iff_ne_zero.mp hpos))]
  · intro vs hpos hsome hlen
    subst hsome
    have hnz : ¬ row_count < 1 := by omega
    have hvne : vs ≠ [] := by
      intro h
      rw [h] at hlen
      simp at hlen
      omega
    simp only [has_one_proj4, if_neg hnz]
    constructor
    · intro h
      rw [beq_iff_eq, List.length_eq_one] at h
      obtain ⟨p, hp⟩ := h
      refine ⟨p, fun v hv => ?_⟩
      have : v ∈ vs.dedup := List.mem_dedup.mpr hv
      rw [hp] at this
      simpa using this
    · intro ⟨p, hp⟩
      rw [dedup_eq_singleton_of_all_eq hvne hp]
      rfl

/-- Witness for C3 at concrete inputs: the empty table is not single-CRS, a
one-row table without the column is, and a two-row table is single-CRS exactly
when the two values agree. -/
theorem claim_C3_witness :
    has_one_proj4 0 none = false ∧
    has_one_proj4 1 none = true ∧
    has_one_proj4 2 (some ["+proj=utm", "+proj=utm"]) = true := by
  refine ⟨?_, ?_, ?_⟩
  · exact (claim_C3_has_one_proj4 0 none).1 rfl
  · exact (claim_C3_has_one_proj4 1 none).2.1 (by decide) rfl
  · exact ((claim_C3_has_one_proj4 2 (some ["+proj=utm", "+proj=utm"])).2.2
      ["+proj=utm", "+proj=utm"] (by decide) rfl (by decide)).mpr
      ⟨"+proj=utm", by decide⟩

/- ------------------------------------------------------------------
Default CRS for CSV loading (`geotable.macros._get_proj4_from_path`).
------------------------------------------------------------------ -/

/-- Models `macros._get_proj4_from_path`. The filesystem is abstracted:
`sidecar_contents` is `some` of the text of the `.proj4` file next to the
source when that file exists, `none` otherwise; `default_proj4` is the
caller-supplied CRS (Python's falsy `None`/empty string become `none`/`some ""`);
`canonicalize` stands for the external `normalize_proj4`. -/
def get_proj4_from_path (canonicalize : String → String)
    (sidecar_contents : Option String) (default_proj4 : Option String) : String :=
  match sidecar_contents with
  | none =>
    match default_proj4 with
    | none => LONGITUDE_LATITUDE_PROJ4
    | some d => if d = "" then LONGITUDE_LATITUDE_PROJ4 else d
  | some contents => canonicalize contents

/-- A sample non-standard proj4 string used as concrete test data. -/
def sample_utm_proj4 : String :=
  "+proj=utm +zone=17 +ellps=WGS84 +datum=WGS84 +units=m +no_defs"

/-- C4 counterexample: with both a caller-supplied CRS and a sidecar `.proj4`
file present, the default CRS is the (canonicalized) sidecar value, not the
caller-supplied value — refuting the claimed caller-first precedence. -/
theorem claim_C4_counterexample :
    get_proj4_from_path (fun s => s) (some sample_utm_proj4)
        (some LONGITUDE_LATITUDE_PROJ4) = sample_utm_proj4 ∧
    sample_utm_proj4 ≠ LONGITUDE_LATITUDE_PROJ4 := by
  exact ⟨rfl, by decide⟩

/-- C4 (amended): when loading a CSV the default CRS is determined with this
precedence — the sidecar `.proj4` file next to the source, when it exists,
always wins (its contents, canonicalized); only when no sidecar exists is the
caller-supplied source CRS used; and only if neither is available (or the
caller value is empty) is the standard longitude-latitude CRS used. -/
theorem claim_C4_proj4_precedence (canonicalize : String → String)
    (contents d : String) :
    get_proj4_from_path canonicalize (some contents) (some d) = canonicalize contents ∧
    get_proj4_from_path canonicalize (some contents) none = canonicalize contents ∧
    get_proj4_from_path canonicalize none (some d)
      = (if d = "" then LONGITUDE_LATITUDE_PROJ4 else d) ∧
    get_proj4_from_path canonicalize none none = LONGITUDE_LATITUDE_PROJ4 :=
  ⟨rfl, rfl, rfl, rfl⟩

/- ------------------------------------------------------------------
CSV saving (`GeoTable.to_csv` with `macros._get_instance_for_csv`):
the geometry_proj4 column and the `.proj4` sidecar file.
------------------------------------------------------------------ -/

/-- The `geometry_proj4` value each row carries after `to_csv` has rebuilt the
table: `_get_instance_for_csv` is called with `source_proj4 or LONGLAT` for the
row's group and sets `geometry_proj4 = normalize_proj4(target_proj4 or
source_proj4)`. `canonicalize` stands for the external `normalize_proj4`. -/
def csv_row_output_proj4 (canonicalize : String → String) (target_proj4 : Option String)
    (row_proj4 : String) : String :=
  let source_proj4 := if row_proj4 = "" then LONGITUDE_LATITUDE_PROJ4 else row_proj4
  match target_proj4 with
  | none => canonicalize source_proj4
  | some t => if t = "" then canonicalize source_proj4 else canonicalize t

/-- What `to_csv` does about the CRS column and the sidecar file. -/
structure CsvCrsEffect where
  drops_proj4_column : Bool
  sidecar_proj4 : Option String
deriving DecidableEq

/-- Models the CRS handling of `GeoTable.to_csv`: the saved table's
`geometry_proj4` values are computed per row; when they are all one value the
column is excluded from the output and, if that value differs from the
standard longitude-latitude CRS, it is written to a `.proj4` sidecar file next
to the output path. An empty table takes the `len(t) == 0` branch, which also
excludes the column and writes no sidecar. -/
def to_csv_crs_effect (canonicalize : String → String) (row_proj4s : List String)
    (target_proj4 : Option String) : CsvCrsEffect :=
  if row_proj4s.isEmpty then
    { drops_proj4_column := true, sidecar_proj4 := none }
  else
    match (row_proj4s.map (csv_row_output_proj4 canonicalize target_proj4)).dedup with
    | [p] =>
      { drops_proj4_column := true,
        sidecar_proj4 := if p = LONGITUDE_LATITUDE_PROJ4 then none else some p }
    | _ => { drops_proj4_column := false, sidecar_proj4 := none }

/-- C5: when saving to CSV, if every row's output CRS (once normalized) equals
the standard longitude-latitude CRS, the `geometry_proj4` column is dropped
and no `.proj4` sidecar is produced; if every row shares one non-standard
output CRS, the column is still dropped and that exact canonical CRS string is
written to the sidecar. -/
theorem claim_C5_csv_sidecar (canonicalize : String → String)
    (row_proj4s : List String) (target_proj4 : Option String) :
    ((∀ r ∈ row_proj4s, csv_row_output_proj4 canonicalize target_proj4 r
        = LONGITUDE_LATITUDE_PROJ4) →
      to_csv_crs_effect canonicalize row_proj4s target_proj4
        = { drops_proj4_column := true, sidecar_proj4 := none }) ∧
    (∀ p, p ≠ LONGITUDE_LATITUDE_PROJ4 → row_proj4s ≠ [] →
      (∀ r ∈ row_proj4s, csv_row_output_proj4 canonicalize target_proj4 r = p) →
      to_csv_crs_effect canonicalize row_proj4s target_proj4
        = { drops_proj4_column := true, sidecar_proj4 := some p }) := by
  constructor
  · intro hall
    rcases hemp : row_proj4s with _ | ⟨r, rs⟩
    · rfl
    · subst hemp
      rw [to_csv_crs_effect, if_neg (by simp)]
      have hmap : ∀ x ∈ (r :: rs).map (csv_row_output_proj4 canonicalize target_proj4),
          x = LONGITUDE_LATITUDE_PROJ4 := by
        intro x hx
        obtain ⟨v, hv, hvx⟩ := List.mem_map.mp hx
        rw [← hvx]
        exact hall v hv
      rw [dedup_eq_singleton_of_all_eq (by simp) hmap]
      simp
  · intro p hp hne hall
    rcases hemp : row_proj4s with _ | ⟨r, rs⟩
    · exact absurd hemp hne
    · subst hemp
      rw [to_csv_crs_effect, if_neg (by simp)]
      have hmap : ∀ x ∈ (r :: rs).map (csv_row_output_proj4 canonicalize target_proj4),
          x = p := by
        intro x hx
        obtain ⟨v, hv, hvx⟩ := List.mem_map.mp hx
        rw [← hvx]
        exact hall v hv
      rw [dedup_eq_singleton_of_all_eq (by simp) hmap]
      simp [hp]

/-- Witness for C5 at concrete inputs: a one-row table in the standard CRS
drops the column and writes no sidecar; the same table reprojected to a
non-standard CRS drops the column and writes exactly that CRS string. -/
theorem claim_C5_witness :
    to_csv_crs_effect (fun s => s) [LONGITUDE_LATITUDE_PROJ4] none
      = { drops_proj4_column := true, sidecar_proj4 := none } ∧
    to_csv_crs_effect (fun s => s) [LONGITUDE_LATITUDE_PROJ4] (some sample_utm_proj4)
      = { drops_proj4_column := true, sidecar_proj4 := some sample_utm_proj4 } := by
  constructor
  · exact (claim_C5_csv_sidecar (fun s => s) [LONGITUDE_LATITUDE_PROJ4] none).1
      (by intro r hr; simp at hr; subst hr; rfl)
  · exact (claim_C5_csv_sidecar (fun s => s) [LONGITUDE_LATITUDE_PROJ4]
      (some sample_utm_proj4)).2 sample_utm_proj4 (by decide) (by simp)
      (by intro r hr; simp at hr; subst hr; rfl)

/- ------------------------------------------------------------------
Vector-dataset writing (`macros._prepare_gdal_layer` feature emission,
reached from `GeoTable.to_shp` via `to_gdal`).
------------------------------------------------------------------ -/

/-- A minimal geometry value: shapely point/linestring/polygon with integer
test coordinates (enough to express the claims' concrete examples). -/
inductive Geometry
  | point (x y : Int)
  | lineString (points : List (Int × Int))
  | polygon (shell : List (Int × Int))
deriving DecidableEq

/-- The geometry type tag of a geometry (the wkb type code the vector driver
distinguishes layers by). -/
def Geometry.geometry_type : Geometry → Nat
  | point _ _ => 1
  | lineString _ => 2
  | polygon _ => 3

/-- Modelled from the spec: the external vector-I/O primitive "write feature
to layer" used by `_prepare_gdal_layer`. A single physical layer has one
geometry type; the first feature establishes the layer's type and a later
`CreateFeature` whose geometry type differs fails with a runtime error
(`Except.error ()` models the `RuntimeError` the Python code catches). -/
def layer_create_feature (established_type : Option Nat) (g : Geometry) :
    Except Unit (Option Nat) :=
  match established_type with
  | none => Except.ok (some g.geometry_type)
  | some t => if g.geometry_type = t then Except.ok (some t) else Except.error ()

/-- The feature-emission loop of `macros._prepare_gdal_layer`: emit each row's
geometry into the layer; a `RuntimeError` from `CreateFeature` is re-raised as
`GeoTableError('mutually incompatible geometry types must be in separate
layers')`. -/
def emit_features : List Geometry → Option Nat → Except String (Option Nat)
  | [], established_type => Except.ok established_type
  | g :: gs, established_type =>
    match layer_create_feature established_type g with
    | Except.ok t => emit_features gs t
    | Except.error _ =>
      Except.error "mutually incompatible geometry types must be in separate layers"

/-- Models `_prepare_gdal_layer` restricted to feature emission: all the rows
grouped into one layer are emitted starting from an empty layer. -/
def prepare_gdal_layer (geometries : List Geometry) : Except String (Option Nat) :=
  emit_features geometries none

lemma emit_features_ok_of_all_eq {gs : List Geometry} {t : Nat}
    (h : ∀ g ∈ gs, g.geometry_type = t) :
    emit_features gs (some t) = Except.ok (some t) := by
  induction gs with
  | nil => rfl
  | cons g gs ih =>
    have hg := h g (List.mem_cons_self g gs)
    simp only [emit_features, layer_create_feature, if_pos hg]
    exact ih (fun g' hg' => h g' (List.mem_cons_of_mem g hg'))

lemma emit_features_error_of_mismatch {gs : List Geometry} {t : Nat}
    (h : ∃ g ∈ gs, g.geometry_type ≠ t) :
    emit_features gs (some t)
      = Except.error "mutually incompatible geometry types must be in separate layers" := by
  induction gs with
  | nil => simp at h
  | cons g gs ih =>
    by_cases hg : g.geometry_type = t
    · simp only [emit_features, layer_create_feature, if_pos hg]
      refine ih ?_
      obtain ⟨g', hg', hne⟩ := h
      rcases List.mem_cons.mp hg' with rfl | hmem
      · exact absurd hg hne
      · exact ⟨g', hmem, hne⟩
    · simp only [emit_features, layer_create_feature, if_neg hg]

/-- C6: writing a table to one vector layer, a feature whose geometry type is
incompatible with the previously emitted geometries of that layer is a fatal
`GeoTableError` stating that incompatible geometry types must be in separate
layers — the layer write fails exactly when two rows carry different geometry
types — and in particular a two-row table with one Point and one LineString
written to a single shapefile layer raises that error. -/
theorem claim_C6_incompatible_geometry_types :
    (∀ geometries : List Geometry,
      prepare_gdal_layer geometries
          = Except.error "mutually incompatible geometry types must be in separate layers"
        ↔ ∃ g ∈ geometries, ∃ h ∈ geometries,
            Geometry.geometry_type g ≠ Geometry.geometry_type h) ∧
    prepare_gdal_layer [Geometry.point 0 0, Geometry.lineString [(0, 0), (1, 1)]]
      = Except.error "mutually incompatible geometry types must be in separate layers" := by
  constructor
  · intro geometries
    rcases geometries with _ | ⟨g, gs⟩
    · simp [prepare_gdal_layer, emit_features]
    · rw [prepare_gdal_layer]
      simp only [emit_features, layer_create_feature]
      constructor
      · intro herr
        by_cases hall : ∀ g' ∈ gs, g'.geometry_type = g.geometry_type
        · rw [emit_features_ok_of_all_eq hall] at herr
          exact Except.noConfusion herr
        · push_neg at hall
          obtain ⟨g', hg', hne⟩ := hall
          exact ⟨g', List.mem_cons_of_mem g hg', g, List.mem_cons_self g gs, hne⟩
      · intro hpair
        refine emit_features_error_of_mismatch ?_
        by_contra hno
        push_neg at hno
        obtain ⟨a, ha, b, hb, hab⟩ := hpair
        have htype : ∀ c ∈ g :: gs, Geometry.geometry_type c = g.geometry_type := by
          intro c hc
          rcases List.mem_cons.mp hc with rfl | hc
          · rfl
          · exact hno c hc
        exact hab ((htype a ha).trans (htype b hb).symm)
  · rfl

/- ------------------------------------------------------------------
CSV loading errors (`GeoTable.from_csv`,
`macros._get_load_geometry_object`).
------------------------------------------------------------------ -/

/-- The error taxonomy of `geotable.exceptions` that `from_csv` raises:
`EmptyGeoTableError` is a subclass of `GeoTableError`, so the two are kept as
distinct constructors carrying their messages. -/
inductive GeoError
  | geoTableError (message : String)
  | emptyGeoTableError (message : String)
deriving DecidableEq

/-- Models the first step of `GeoTable.from_csv`: `load_csv_safely` raising
`pandas.errors.EmptyDataError` (modelled by `none`, which is what a zero-byte
file produces) is re-raised as `EmptyGeoTableError('file empty (<path>)')`. -/
def from_csv_parse {α : Type} (parsed : Option α) (source_path : String) :
    Except GeoError α :=
  match parsed with
  | none => Except.error (GeoError.emptyGeoTableError ("file empty (" ++ source_path ++ ")"))
  | some t => Except.ok t

/-- The row-to-geometry loader built by `macros._get_load_geometry_object`:
either a point from a column pair, or a wkt parse of a single column (with an
axis flip for the latitude-longitude variant). -/
inductive GeometryLoader
  | pairPoint (x_column y_column : String)
  | wktLoader (column : String) (flip : Bool)
deriving DecidableEq

/-- Models `macros._get_load_geometry_object`: two columns build a Point from
the pair; a single column is dispatched on the normalized name (`wkt` and
`longitudelatitudewkt` parse as-is, `latitudelongitudewkt` parses then swaps
the axes), any other single-column name is
`GeoTableError('geometry columns not supported (<names>)')`. -/
def get_load_geometry_object (geometry_columns : List String) :
    Except GeoError GeometryLoader :=
  match geometry_columns with
  | [x_column, y_column] => Except.ok (GeometryLoader.pairPoint x_column y_column)
  | first_column :: _ =>
    if normalize_column_name first_column = "wkt"
        ∨ normalize_column_name first_column = "longitudelatitudewkt" then
      Except.ok (GeometryLoader.wktLoader first_column false)
    else if normalize_column_name first_column = "latitudelongitudewkt" then
      Except.ok (GeometryLoader.wktLoader first_column true)
    else
      Except.error (GeoError.geoTableError
        ("geometry columns not supported (" ++ " ".intercalate geometry_columns ++ ")"))
  | [] =>
    Except.error (GeoError.geoTableError "geometry columns not supported ()")

/-- Models `invisibleroads_macros.geometry.flip_xy`: swap the x and y
coordinate of every vertex. -/
def flip_xy : Geometry → Geometry
  | Geometry.point x y => Geometry.point y x
  | Geometry.lineString points => Geometry.lineString (points.map (fun p => (p.2, p.1)))
  | Geometry.polygon shell => Geometry.polygon (shell.map (fun p => (p.2, p.1)))

/-- Runs a built loader on one row. The row is a cell lookup from column name
to its raw value; `parse_wkt` stands for the external `shapely.wkt.loads`,
returning `none` on `WKTReadingError`, in which case the loader raises
`GeoTableError('wkt unparseable (<value>)')`; `parse_point` stands for
`shapely.geometry.Point` applied to the two cells. -/
def run_geometry_loader (parse_wkt : String → Option Geometry)
    (parse_point : String → String → Geometry) (row : String → String) :
    GeometryLoader → Except GeoError Geometry
  | GeometryLoader.pairPoint x_column y_column =>
    Except.ok (parse_point (row x_column) (row y_column))
  | GeometryLoader.wktLoader column flip =>
    match parse_wkt (row column) with
    | none =>
      Except.error (GeoError.geoTableError ("wkt unparseable (" ++ row column ++ ")"))
    | some g => Except.ok (if flip then flip_xy g else g)

/-- C7: loading a CSV source with no parseable rows (a zero-byte file) raises
`EmptyGeoTableError`, and loading a CSV whose resolved geometry column is a
wkt column containing unparseable text raises
`GeoTableError('wkt unparseable (<value>)')` carrying the offending value. -/
theorem claim_C7_csv_errors :
    (∀ (source_path : String), from_csv_parse (none : Option Unit) source_path
      = Except.error (GeoError.emptyGeoTableError ("file empty (" ++ source_path ++ ")"))) ∧
    (∀ (c : String), normalize_column_name c = "wkt" →
      get_load_geometry_object [c] = Except.ok (GeometryLoader.wktLoader c false)) ∧
    (∀ (parse_wkt : String → Option Geometry)
        (parse_point : String → String → Geometry)
        (row : String → String) (column : String) (flip : Bool),
      parse_wkt (row column) = none →
      run_geometry_loader parse_wkt parse_point row (GeometryLoader.wktLoader column flip)
        = Except.error
            (GeoError.geoTableError ("wkt unparseable (" ++ row column ++ ")"))) := by
  refine ⟨fun _ => rfl, ?_, ?_⟩
  · intro c hc
    have hun : get_load_geometry_object [c]
        = if normalize_column_name c = "wkt"
            ∨ normalize_column_name c = "longitudelatitudewkt" then
            Except.ok (GeometryLoader.wktLoader c false)
          else if normalize_column_name c = "latitudelongitudewkt" then
            Except.ok (GeometryLoader.wktLoader c true)
          else Except.error (GeoError.geoTableError
            ("geometry columns not supported (" ++ " ".intercalate [c] ++ ")")) := rfl
    rw [hun, if_pos (Or.inl hc)]
  · intro parse_wkt parse_point row column flip hparse
    rw [run_geometry_loader, hparse]

/-- Witness for C7 at concrete inputs: an empty parse of `x.csv` raises the
empty-table error, the `WKT` column resolves to the plain wkt loader, and a
parser that rejects the cell text `x` produces the unparseable-wkt error. -/
theorem claim_C7_witness :
    from_csv_parse (none : Option Unit) "x.csv"
      = Except.error (GeoError.emptyGeoTableError "file empty (x.csv)") ∧
    get_load_geometry_object ["WKT"] = Except.ok (GeometryLoader.wktLoader "WKT" false) ∧
    run_geometry_loader (fun _ => none) (fun _ _ => Geometry.point 0 0) (fun _ => "x")
        (GeometryLoader.wktLoader "WKT" false)
      = Except.error (GeoError.geoTableError "wkt unparseable (x)") := by
  refine ⟨claim_C7_csv_errors.1 "x.csv", ?_, ?_⟩
  · exact claim_C7_csv_errors.2.1 "WKT" (by decide)
  · exact claim_C7_csv_errors.2.2 (fun _ => none) (fun _ _ => Geometry.point 0 0)
      (fun _ => "x") "WKT" false rfl

/- ------------------------------------------------------------------
Duplicate-geometry dropping (`GeoTable.drop_duplicate_geometries`).
------------------------------------------------------------------ -/

/-- A well-known-binary encoding of the model geometries: a geometry-type tag
followed by the vertex count and coordinates, so two geometries have equal
encodings exactly when they are the same geometry with the same coordinates
(exact binary equality, no tolerance). -/
def Geometry.wkb : Geometry → List Int
  | point x y => [1, x, y]
  | lineString points =>
    2 :: (points.length : Int) :: points.foldr (fun p acc => p.1 :: p.2 :: acc) []
  | polygon shell =>
    3 :: (shell.length : Int) :: shell.foldr (fun p acc => p.1 :: p.2 :: acc) []

/-- Modelled from the spec: the documented semantics of pandas
`DataFrame.drop_duplicates(subset=['geometry_wkb'])` (keep='first', the
default) used by `drop_duplicate_geometries` — keep the first row of each
group of rows with equal key, preserving row order; `seen` accumulates the
keys already kept. -/
def drop_duplicates_by {α β : Type} [DecidableEq β] (key : α → β) :
    List α → List β → List α
  | [], _ => []
  | r :: rs, seen =>
    if key r ∈ seen then drop_duplicates_by key rs seen
    else r :: drop_duplicates_by key rs (key r :: seen)

/-- Models `GeoTable.drop_duplicate_geometries`: add a `geometry_wkb` key
column, drop duplicate rows by that key, drop the key column again. -/
def drop_duplicate_geometries {α : Type} (geometry : α → Geometry) (rows : List α) :
    List α :=
  drop_duplicates_by (fun r => (geometry r).wkb) rows []

lemma drop_duplicates_by_sublist {α β : Type} [DecidableEq β] (key : α → β)
    (l : List α) (seen : List β) : (drop_duplicates_by key l seen).Sublist l := by
  induction l generalizing seen with
  | nil => exact List.Sublist.refl []
  | cons r rs ih =>
    by_cases hr : key r ∈ seen
    · simp only [drop_duplicates_by, if_pos hr]
      exact (ih seen).cons r
    · simp only [drop_duplicates_by, if_neg hr]
      exact (ih (key r :: seen)).cons₂ r

lemma drop_duplicates_by_filter_of_seen {α β : Type} [DecidableEq β] (key : α → β)
    (l : List α) (seen : List β) (k : β) (hk : k ∈ seen) :
    (drop_duplicates_by key l seen).filter (fun x => decide (key x = k)) = [] := by
  induction l generalizing seen with
  | nil => rfl
  | cons r rs ih =>
    by_cases hr : key r ∈ seen
    · simp only [drop_duplicates_by, if_pos hr]
      exact ih seen hk
    · simp only [drop_duplicates_by, if_neg hr]
      have hne : key r ≠ k := fun h => hr (h ▸ hk)
      rw [List.filter_cons_of_neg (by simpa using hne)]
      exact ih (key r :: seen) (List.mem_cons_of_mem _ hk)

lemma drop_duplicates_by_filter_of_find {α β : Type} [DecidableEq β] (key : α → β)
    (l : List α) (seen : List β) (k : β) (hk : k ∉ seen) :
    (drop_duplicates_by key l seen).filter (fun x => decide (key x = k))
      = (l.find? (fun x => decide (key x = k))).toList := by
  induction l generalizing seen with
  | nil => rfl
  | cons r rs ih =>
    by_cases hrk : key r = k
    · have hr : key r ∉ seen := fun h => hk (hrk ▸ h)
      simp only [drop_duplicates_by, if_neg hr]
      rw [List.filter_cons_of_pos (by simpa using hrk),
        List.find?_cons_of_pos _ (by simpa using hrk)]
      rw [drop_duplicates_by_filter_of_seen key rs (key r :: seen) k
        (by rw [← hrk]; exact List.mem_cons_self _ _)]
      rfl
    · rw [List.find?_cons_of_neg _ (by simpa using hrk)]
      by_cases hr : key r ∈ seen
      · simp only [drop_duplicates_by, if_pos hr]
        exact ih seen hk
      · simp only [drop_duplicates_by, if_neg hr]
        rw [List.filter_cons_of_neg (by simpa using hrk)]
        exact ih (key r :: seen) (by
          intro h
          rcases List.mem_cons.mp h with h | h
          · exact hrk h.symm
          · exact hk h)

/-- C8: dropping duplicate geometries keeps exactly the first row of every
group of rows whose geometries have identical well-known-binary bytes (exact
binary equality), preserving the original order of the retained rows: the
result is a sublist of the input, and for every input row the rows retained
with its wkb key are exactly the first input row carrying that key; in
particular for lon/lat point rows (0,0),(0,0),(0,1),(1,2) the deduplicated
result has length 3. -/
theorem claim_C8_drop_duplicate_geometries {α : Type} (geometry : α → Geometry)
    (rows : List α) :
    (drop_duplicate_geometries geometry rows).Sublist rows ∧
    (∀ r ∈ rows,
      (drop_duplicate_geometries geometry rows).filter
          (fun x => decide ((geometry x).wkb = (geometry r).wkb))
        = (rows.find? (fun x => decide ((geometry x).wkb = (geometry r).wkb))).toList) ∧
    (drop_duplicate_geometries (fun p : Int × Int => Geometry.point p.1 p.2)
      [(0, 0), (0, 0), (0, 1), (1, 2)]).length = 3 := by
  refine ⟨drop_duplicates_by_sublist _ rows [], ?_, rfl⟩
  intro r _
  exact drop_duplicates_by_filter_of_find (fun x => (geometry x).wkb) rows []
    (geometry r).wkb (by simp)

/-- Witness for C8 at a concrete input: among the rows (0,0),(0,0),(0,1),(1,2)
the rows retained with the wkb key of (0,0) are exactly the first (0,0). -/
theorem claim_C8_witness :
    (drop_duplicate_geometries (fun p : Int × Int => Geometry.point p.1 p.2)
        [(0, 0), (0, 0), (0, 1), (1, 2)]).filter
      (fun x => decide ((Geometry.point x.1 x.2).wkb = (Geometry.point 0 0).wkb))
    = (([(0, 0), (0, 0), (0, 1), (1, 2)] : List (Int × Int)).find?
        (fun x => decide ((Geometry.point x.1 x.2).wkb = (Geometry.point 0 0).wkb))).toList :=
  (claim_C8_drop_duplicate_geometries (fun p : Int × Int => Geometry.point p.1 p.2)
    [(0, 0), (0, 0), (0, 1), (1, 2)]).2.1 (0, 0) (by decide)

/- ------------------------------------------------------------------
GeoJSON/KMZ saving (`GeoTable.to_geojson`, `to_kmz`, `save_geojson`,
`save_kmz`) and the layer CRS chosen by `to_gdal`.
------------------------------------------------------------------ -/

/-- The call `to_geojson`/`to_kmz` dispatch to `to_gdal`: target path, the
target CRS actually passed on, and the driver name. -/
structure ToGdalCall where
  target_path : String
  target_proj4 : Option String
  driver_name : String
deriving DecidableEq

/-- Models `GeoTable.to_geojson`: calls `to_gdal` with
`target_proj4=LONGITUDE_LATITUDE_PROJ4` and the GeoJSON driver, discarding its
own `target_proj4` parameter. -/
def to_geojson (target_path : String) (_target_proj4 : Option String) : ToGdalCall :=
  { target_path := target_path,
    target_proj4 := some LONGITUDE_LATITUDE_PROJ4,
    driver_name := "GeoJSON" }

/-- Models `GeoTable.to_kmz`: calls `to_gdal` with
`target_proj4=LONGITUDE_LATITUDE_PROJ4` and the LIBKML driver, discarding its
own `target_proj4` parameter. -/
def to_kmz (target_path : String) (_target_proj4 : Option String) : ToGdalCall :=
  { target_path := target_path,
    target_proj4 := some LONGITUDE_LATITUDE_PROJ4,
    driver_name := "LIBKML" }

/-- Models `GeoTable.save_geojson`: delegates to `to_geojson`. -/
def save_geojson (target_path : String) (target_proj4 : Option String) : ToGdalCall :=
  to_geojson target_path target_proj4

/-- Models `GeoTable.save_kmz`: delegates to `to_kmz`. -/
def save_kmz (target_path : String) (target_proj4 : Option String) : ToGdalCall :=
  to_kmz target_path target_proj4

/-- The CRS `_prepare_gdal_layer` creates a layer with:
`target_proj4 or t.iloc[0]['geometry_proj4']`. -/
def gdal_layer_proj4 (target_proj4 : Option String) (first_row_proj4 : String) : String :=
  match target_proj4 with
  | none => first_row_proj4
  | some t => if t = "" then first_row_proj4 else t

/-- C9: the GeoJSON and KMZ save operations always write geometries in the
standard longitude-latitude CRS — the caller-supplied `target_proj4` they
accept is discarded and replaced by the longitude-latitude CRS before
dispatching to the vector-dataset writer, so every layer is created with the
longitude-latitude CRS whatever the rows' own CRS is. -/
theorem claim_C9_geojson_kmz_longlat (target_path : String)
    (target_proj4 : Option String) (first_row_proj4 : String) :
    (to_geojson target_path target_proj4).target_proj4 = some LONGITUDE_LATITUDE_PROJ4 ∧
    (to_kmz target_path target_proj4).target_proj4 = some LONGITUDE_LATITUDE_PROJ4 ∧
    save_geojson target_path target_proj4 = to_geojson target_path target_proj4 ∧
    save_kmz target_path target_proj4 = to_kmz target_path target_proj4 ∧
    (to_geojson target_path target_proj4).driver_name = "GeoJSON" ∧
    (to_kmz target_path target_proj4).driver_name = "LIBKML" ∧
    gdal_layer_proj4 (to_geojson target_path target_proj4).target_proj4 first_row_proj4
      = LONGITUDE_LATITUDE_PROJ4 ∧
    gdal_layer_proj4 (to_kmz target_path target_proj4).target_proj4 first_row_proj4
      = LONGITUDE_LATITUDE_PROJ4 :=
  ⟨rfl, rfl, rfl, rfl, rfl, rfl, rfl, rfl⟩

/- ------------------------------------------------------------------
Archive/folder loading (`GeoTable._load`).
------------------------------------------------------------------ -/

/-- The exceptions relevant to `_load`'s per-file try/except: the caught
`GeoTableError` and `ValueError`, and anything else, which propagates. -/
inductive PyException
  | geoTableExc (message : String)
  | valueErrorExc (message : String)
  | otherExc (message : String)
deriving DecidableEq

/-- The caught exception kinds of the `except (GeoTableError, ValueError)`
clauses in `GeoTable._load`. -/
def is_caught : PyException → Bool
  | PyException.geoTableExc _ => true
  | PyException.valueErrorExc _ => true
  | PyException.otherExc _ => false

/-- The per-file loop of `GeoTable._load` over the CSVs and shapefiles found
in an uncompressed archive or folder: each element is the outcome of loading
one contained file (a table as its list of rows, or the exception it raised);
files raising `GeoTableError` or `ValueError` are skipped, other exceptions
propagate. -/
def load_folder_tables {α : Type} :
    List (Except PyException (List α)) → Except PyException (List (List α))
  | [] => Except.ok []
  | r :: rs =>
    match r with
    | Except.ok t =>
      match load_folder_tables rs with
      | Except.ok tables => Except.ok (t :: tables)
      | Except.error e => Except.error e
    | Except.error e =>
      if is_caught e then load_folder_tables rs else Except.error e

/-- Models `GeoTable._load` for an archive/folder source: collect the loadable
contained files; if any loaded, concatenate them (ignore-index), else return
the empty table `Class()`. -/
def load_from_folder {α : Type} (results : List (Except PyException (List α))) :
    Except PyException (List α) :=
  match load_folder_tables results with
  | Except.error e => Except.error e
  | Except.ok tables => if tables.isEmpty then Except.ok [] else Except.ok tables.flatten

/-- C10: when loading an archive or folder, every contained file whose load
raises `GeoTableError` or `ValueError` is silently skipped — removing such a
result leaves the overall outcome unchanged — and when every contained file
fails with a caught error the result is the empty table, not an error. -/
theorem claim_C10_folder_load_skips {α : Type}
    (results pre post : List (Except PyException (List α))) (e : PyException) :
    (is_caught e = true →
      load_from_folder (pre ++ Except.error e :: post) = load_from_folder (pre ++ post)) ∧
    ((∀ r ∈ results, ∃ exc, r = Except.error exc ∧ is_caught exc = true) →
      load_from_folder results = Except.ok []) := by
  constructor
  · intro he
    have h : load_folder_tables (pre ++ Except.error e :: post)
        = load_folder_tables (pre ++ post) := by
      induction pre with
      | nil => simp [load_folder_tables, he]
      | cons r rs ih =>
        rcases r with e' | t
        · simp only [List.cons_append, load_folder_tables, List.append_eq, ih]
        · simp only [List.cons_append, load_folder_tables, List.append_eq, ih]
    rw [load_from_folder, h, load_from_folder]
  · intro hall
    have h : load_folder_tables results = Except.ok [] := by
      induction results with
      | nil => rfl
      | cons r rs ih =>
        obtain ⟨exc, hr, hc⟩ := hall r (List.mem_cons_self r rs)
        subst hr
        simp only [load_folder_tables, if_pos hc]
        exact ih (fun r' hr' => hall r' (List.mem_cons_of_mem _ hr'))
    rw [load_from_folder, h]
    rfl

/-- Witness for C10 at concrete inputs: a folder whose single CSV raises
`GeoTableError` loads as the empty table, and a failing file next to a
loadable one is skipped. -/
theorem claim_C10_witness :
    load_from_folder [Except.error (PyException.geoTableExc "geometry columns expected")]
      = (Except.ok [] : Except PyException (List Nat)) ∧
    load_from_folder
        (([Except.ok [7]] : List (Except PyException (List Nat)))
          ++ Except.error (PyException.valueErrorExc "bad") :: [])
      = load_from_folder ([Except.ok [7]] ++ ([] : List (Except PyException (List Nat)))) := by
  constructor
  · exact (claim_C10_folder_load_skips
      [Except.error (PyException.geoTableExc "geometry columns expected")] [] []
      (PyException.geoTableExc "geometry columns expected")).2
      (by
        intro r hr
        simp only [List.mem_singleton] at hr
        exact ⟨PyException.geoTableExc "geometry columns expected", hr, rfl⟩)
  · exact (claim_C10_folder_load_skips ([] : List (Except PyException (List Nat)))
      [Except.ok [7]] [] (PyException.valueErrorExc "bad")).1 rfl
